import Mathlib

/-
  Verification of the map-screenshot-api service (src/index.js, the full
  v1.1.0 iteration of the file) against its natural-language specification.

  The JavaScript source is shallowly embedded:
  * JS numbers are modelled as rationals; JS request-body values that the
    checked code inspects with typeof / truthiness are modelled by the
    inductive type JVal (undefined, a number, or a string).
  * The BrowserPool class is modelled as an explicit state record.  The JS
    array this.browsers is pushed/popped at its end, so it is modelled as a
    list whose HEAD is the array end (push = cons, pop = head).  Two ghost
    fields are added for bookkeeping that the verification needs: destroyed
    records every instance handed to browser.close(), and nextId is the
    supply of fresh instance identities for puppeteer.launch().
  * The embedded readiness script of generateHtml is modelled as a state
    machine over the events its handlers react to (tileloadstart,
    tileloadend, tileloaderror, rendercomplete, and the 2-second and
    15-second setTimeout callbacks).
-/

namespace MapShot

/-! ## JavaScript values

A request-body field, as far as the validated code inspects it:
absent (undefined / null), a number, or a string. -/

inductive JVal where
  | undefined
  | num (q : ℚ)
  | str (s : String)
deriving DecidableEq

/-- JS truthiness of a JVal: undefined and null are falsy, a number is
truthy iff nonzero, a string is truthy iff nonempty. -/
def JVal.truthy : JVal → Bool
  | .undefined => false
  | .num q => decide (q ≠ 0)
  | .str s => decide (s ≠ "")

/-- Models the JS test (typeof v === number). -/
def JVal.isNum : JVal → Bool
  | .num _ => true
  | _ => false

/-- Models the JS test (typeof v === string). -/
def JVal.isStr : JVal → Bool
  | .str _ => true
  | _ => false

/-- Numeric value of a JVal; only consulted after isNum has been checked. -/
def JVal.toNum : JVal → ℚ
  | .num q => q
  | _ => 0

/-- Models v.length > n for the string case; a non-string v has an
undefined length, and (undefined > n) is false in JS. -/
def JVal.strLen : JVal → Nat
  | .str s => s.length
  | _ => 0

/-! ## Browser pool (class BrowserPool, src/index.js lines 217-263) -/

/-- State of the BrowserPool instance.  browsers is the idle array with the
JS array end at the list head; inUse is the Set of leased instances;
destroyed and nextId are ghost bookkeeping (see file header). -/
structure BrowserPool where
  browsers : List Nat
  maxSize : Nat
  inUse : Finset Nat
  destroyed : List Nat
  nextId : Nat
deriving DecidableEq

/-- The pool constructed at module load (constructor, lines 218-222):
empty idle array, maxSize 3, empty inUse set. -/
def BrowserPool.init : BrowserPool :=
  { browsers := [], maxSize := 3, inUse := ∅, destroyed := [], nextId := 0 }

/-- A pool with the same constructor state but an arbitrary capacity, used
to state the capacity-generic pool claims. -/
def initPoolC (c : Nat) : BrowserPool :=
  { browsers := [], maxSize := c, inUse := ∅, destroyed := [], nextId := 0 }

/-- getBrowser (lines 224-244): if the idle array is nonempty, pop its last
element and add it to inUse; otherwise launch a fresh instance (modelled as
the fresh identity nextId) and add that to inUse. -/
def getBrowser (s : BrowserPool) : Nat × BrowserPool :=
  match s.browsers with
  | b :: rest => (b, { s with browsers := rest, inUse := insert b s.inUse })
  | [] =>
    (s.nextId,
      { s with inUse := insert s.nextId s.inUse, nextId := s.nextId + 1 })

/-- releaseBrowser (lines 246-254): delete the instance from inUse, then
push it onto the idle array if that array holds fewer than maxSize
elements, otherwise close (destroy) it. -/
def releaseBrowser (s : BrowserPool) (b : Nat) : BrowserPool :=
  let t := { s with inUse := s.inUse.erase b }
  if t.browsers.length < t.maxSize then
    { t with browsers := b :: t.browsers }
  else
    { t with destroyed := b :: t.destroyed }

/-- One pool API call. -/
inductive PoolOp where
  | acquire
  | release (b : Nat)
deriving DecidableEq

def poolStep (s : BrowserPool) : PoolOp → BrowserPool
  | .acquire => (getBrowser s).2
  | .release b => releaseBrowser s b

def runPool (s : BrowserPool) : List PoolOp → BrowserPool
  | [] => s
  | op :: ops => runPool (poolStep s op) ops

/-- A call sequence is well-formed when every release call targets an
instance that is leased (in inUse) at the moment of the call - the call
discipline the request handlers follow (one release per successful lease). -/
def wfOps (s : BrowserPool) : List PoolOp → Bool
  | [] => true
  | .acquire :: ops => wfOps (poolStep s .acquire) ops
  | .release b :: ops => decide (b ∈ s.inUse) && wfOps (releaseBrowser s b) ops

/-- Acquire n instances in sequence, collecting the handed-out identities
in call order. -/
def acquireN : Nat → BrowserPool → List Nat × BrowserPool
  | 0, s => ([], s)
  | n + 1, s =>
    let r := getBrowser s
    let rest := acquireN n r.2
    (r.1 :: rest.1, rest.2)

/-- Release a list of instances in order. -/
def releaseList : BrowserPool → List Nat → BrowserPool
  | s, [] => s
  | s, b :: bs => releaseList (releaseBrowser s b) bs

/-- Effect on pool state of the POST /screenshot catch block
(lines 557-572): when a browser had been acquired the handler calls
browser.close() directly - recorded in the ghost destroyed list - and it
never calls browserPool.releaseBrowser, so neither the browsers array nor
the inUse set is touched. -/
def screenshotCatchPath (s : BrowserPool) (b : Option Nat) : BrowserPool :=
  match b with
  | some br => { s with destroyed := br :: s.destroyed }
  | none => s

/-! ## Input validation (validateInput, src/index.js lines 268-346)

Request subobjects.  A WMS layer entry and a pin object carry JVal fields,
since the code type-checks each field itself.  The wms value as a whole is
modelled as Option (List WmsReq) (absent/null versus an array) and the pin
value as Option PinReq (absent/null versus an object); a non-array wms or
non-object pin is representable in JS but outside this model, which is
enough for every claim checked here. -/

structure WmsReq where
  url : JVal
  layers : JVal
  opacity : JVal
deriving DecidableEq

structure PinReq where
  lat : JVal
  lon : JVal
  text : JVal
  color : JVal
  size : JVal
deriving DecidableEq

def latMsg : String := "Latitude must be a number between -90 and 90"

def lonMsg : String := "Longitude must be a number between -180 and 180"

def zoomMsg : String := "Zoom must be a number between 1 and 20"

def widthMsg : String := "Width must be a number between 100 and 2000"

def heightMsg : String := "Height must be a number between 100 and 2000"

def wmsMaxMsg : String := "Maximum 5 WMS layers allowed"

/-- Per-layer WMS checks (lines 305-315); i is the 1-based layer label the
code derives from the forEach index. -/
def wmsLayerErrors : Nat → List WmsReq → List String
  | _, [] => []
  | i, w :: rest =>
    (if w.url.truthy = false ∨ w.url.isStr = false then
      ["WMS layer " ++ toString i ++ ": URL is required and must be a string"]
    else []) ++
    (if w.layers.truthy = false ∨ w.layers.isStr = false then
      ["WMS layer " ++ toString i ++
        ": layers parameter is required and must be a string"]
    else []) ++
    (if w.opacity ≠ JVal.undefined ∧
        (w.opacity.isNum = false ∨ w.opacity.toNum < 0 ∨ w.opacity.toNum > 1) then
      ["WMS layer " ++ toString i ++ ": opacity must be a number between 0 and 1"]
    else []) ++
    wmsLayerErrors (i + 1) rest

/-- Pin checks (lines 320-343).  Note the code tests pin.lat and pin.lon
against undefined but pin.text, pin.color and pin.size by truthiness, and
bounds pin.size by 1 although its message says 10. -/
def pinErrors (p : PinReq) : List String :=
  (if p.lat ≠ JVal.undefined ∧
      (p.lat.isNum = false ∨ p.lat.toNum < -90 ∨ p.lat.toNum > 90) then
    ["Pin latitude must be a number between -90 and 90"]
  else []) ++
  (if p.lon ≠ JVal.undefined ∧
      (p.lon.isNum = false ∨ p.lon.toNum < -180 ∨ p.lon.toNum > 180) then
    ["Pin longitude must be a number between -180 and 180"]
  else []) ++
  (if p.text.truthy = true ∧ p.text.isStr = false then
    ["Pin text must be a string"]
  else []) ++
  (if p.text.truthy = true ∧ p.text.strLen > 50 then
    ["Pin text cannot exceed 50 characters"]
  else []) ++
  (if p.color.truthy = true ∧ p.color.isStr = false then
    ["Pin color must be a valid color string"]
  else []) ++
  (if p.size.truthy = true ∧
      (p.size.isNum = false ∨ p.size.toNum < 1 ∨ p.size.toNum > 50) then
    ["Pin size must be a number between 10 and 50"]
  else [])

/-- validateInput (lines 268-346): pushes a message for every violated
rule, in source order, and returns the collected list.  Note the width and
height checks fire only for truthy values and use the numeric bound 50,
not the 100 stated in their own messages. -/
def validateInput (lat lon zoom width height : JVal)
    (wms : Option (List WmsReq)) (pin : Option PinReq) : List String :=
  (if lat.isNum = false ∨ lat.toNum < -90 ∨ lat.toNum > 90 then [latMsg]
    else []) ++
  (if lon.isNum = false ∨ lon.toNum < -180 ∨ lon.toNum > 180 then [lonMsg]
    else []) ++
  (if zoom.isNum = false ∨ zoom.toNum < 1 ∨ zoom.toNum > 20 then [zoomMsg]
    else []) ++
  (if width.truthy = true ∧
      (width.isNum = false ∨ width.toNum < 50 ∨ width.toNum > 2000) then
    [widthMsg]
  else []) ++
  (if height.truthy = true ∧
      (height.isNum = false ∨ height.toNum < 50 ∨ height.toNum > 2000) then
    [heightMsg]
  else []) ++
  (match wms with
    | none => []
    | some ws => (if ws.length > 5 then [wmsMaxMsg] else []) ++
        wmsLayerErrors 1 ws) ++
  (match pin with
    | none => []
    | some p => pinErrors p)

/-! ## Document generator (generateHtml, src/index.js lines 685-909)

The generator is modelled structurally: the layer declarations its forEach
emits into wmsLayersCode, and the order in which layersArray pushes layers
(base OSM layer first, then each WMS overlay in request order, then the
pin layer last when a pin is present). -/

/-- One overlay declaration emitted by the forEach at lines 691-715:
the const name wmsLayer-index, the url and LAYERS params interpolated, and
the opacity, defaulting to 1 exactly when the request omitted it. -/
structure WmsLayerDecl where
  name : String
  url : JVal
  layers : JVal
  opacity : JVal
deriving DecidableEq

/-- The overlay declarations of wmsLayersCode, in forEach order, starting
at index i. -/
def wmsLayerDecls : Nat → List WmsReq → List WmsLayerDecl
  | _, [] => []
  | i, w :: rest =>
    { name := "wmsLayer" ++ toString i,
      url := w.url,
      layers := w.layers,
      opacity := if w.opacity = JVal.undefined then JVal.num 1 else w.opacity } ::
    wmsLayerDecls (i + 1) rest

/-- A layer pushed onto the layers array of the generated page. -/
inductive MapLayer where
  | osm
  | wms (d : WmsLayerDecl)
  | pin
deriving DecidableEq

/-- The layers array built by layersArray plus the trailing conditional
pin push (lines 688, 713, 826-832): the OSM base layer first, then the
overlay layers in request order, then the pin layer when a pin is given.
A null wms and an empty wms array both contribute no overlays (line 690). -/
def docLayers (wms : Option (List WmsReq)) (pin : Option PinReq) :
    List MapLayer :=
  (MapLayer.osm :: (wmsLayerDecls 0 (wms.getD [])).map MapLayer.wms) ++
  (match pin with
    | some _ => [MapLayer.pin]
    | none => [])

/-- The generated document, structurally: the view centre and zoom as
interpolated at lines 839-840, and the layers array. -/
structure MapDoc where
  centerLon : JVal
  centerLat : JVal
  zoom : JVal
  layers : List MapLayer
deriving DecidableEq

/-- generateHtml (lines 685-909), structurally. -/
def generateHtml (lat lon zoom : JVal) (wms : Option (List WmsReq))
    (pin : Option PinReq) : MapDoc :=
  { centerLon := lon, centerLat := lat, zoom := zoom,
    layers := docLayers wms pin }

/-! ## String embedding sites of generateHtml

For the injection claim the relevant sites are embedded at the string
level, exactly as the template interpolates them.  squote is the single
quote character U+0027, written via its code point. -/

def squote : String := Char.toString (Char.ofNat 39)

/-- Line 699 of src/index.js: the overlay source url is interpolated raw
between single quotes. -/
def embedWmsUrl (url : String) : String :=
  "url: " ++ squote ++ url ++ squote ++ ","

/-- Line 701: the overlay LAYERS identifier is interpolated raw between
single quotes. -/
def embedWmsLayersParam (layers : String) : String :=
  squote ++ "LAYERS" ++ squote ++ ": " ++ squote ++ layers ++ squote ++ ","

/-- Line 746: the pin label is interpolated raw between single quotes. -/
def embedPinText (pinText : String) : String :=
  "text: " ++ squote ++ pinText ++ squote ++ ","

/-- Line 738: the pin colour is interpolated raw between single quotes. -/
def embedPinColor (pinColor : String) : String :=
  "color: " ++ squote ++ pinColor ++ squote

/-- Number of single-quote characters in a string. -/
def quoteCount (s : String) : Nat := s.data.count (Char.ofNat 39)

/-- Number of backslash characters in a string; zero means no escape
character was introduced anywhere. -/
def backslashCount (s : String) : Nat := s.data.count (Char.ofNat 92)

/-! ## POST /screenshot request handling (lines 475-511) -/

structure ScreenshotReq where
  lat : JVal
  lon : JVal
  zoom : JVal
  width : JVal
  height : JVal
  format : Option String
  quality : Option ℚ
  wms : Option (List WmsReq)
  pin : Option PinReq
deriving DecidableEq

/-- JS destructuring default: the default applies exactly when the field
is undefined. -/
def jsDefault (v : JVal) (d : JVal) : JVal :=
  match v with
  | .undefined => d
  | v => v

def reqWidth (r : ScreenshotReq) : JVal := jsDefault r.width (JVal.num 640)

def reqHeight (r : ScreenshotReq) : JVal := jsDefault r.height (JVal.num 480)

def reqFormat (r : ScreenshotReq) : String := r.format.getD "jpeg"

def reqQuality (r : ScreenshotReq) : ℚ := r.quality.getD 70

/-- The validation errors the POST handler computes at line 489. -/
def reqErrors (r : ScreenshotReq) : List String :=
  validateInput r.lat r.lon r.zoom (reqWidth r) (reqHeight r) r.wms r.pin

def supportedFormats : List String := ["jpeg", "png", "webp"]

/-- Outcome of the POST /screenshot handler before (or instead of) the
render pipeline: the three early HTTP 400 returns, or entry into the
try block with the values the core is invoked with. -/
inductive PostResponse where
  | validationFailed (details : List String)
  | unsupportedFormat (supported : List String)
  | badQuality
  | render (doc : MapDoc) (width height : JVal) (format : String) (quality : ℚ)
deriving DecidableEq

/-- The decision logic of the POST /screenshot handler (lines 475-523):
validateInput first, then the format whitelist, then the jpeg quality
range, and only if all pass is the core render pipeline entered with the
document generated from the request fields. -/
def postScreenshot (r : ScreenshotReq) : PostResponse :=
  let errs := reqErrors r
  if errs.isEmpty = false then
    .validationFailed errs
  else if supportedFormats.contains (reqFormat r) = false then
    .unsupportedFormat supportedFormats
  else if reqFormat r = "jpeg" ∧ (reqQuality r < 1 ∨ reqQuality r > 100) then
    .badQuality
  else
    .render (generateHtml r.lat r.lon r.zoom r.wms r.pin)
      (reqWidth r) (reqHeight r) (reqFormat r) (reqQuality r)

/-- True exactly when the handler reached the core render pipeline. -/
def invokesCore : PostResponse → Bool
  | .render _ _ _ _ _ => true
  | _ => false

/-! ## POST /preview-html (lines 576-588) -/

inductive PreviewResponse where
  | badRequest (msg : String)
  | html (doc : MapDoc)
deriving DecidableEq

/-- The POST /preview-html handler: a truthiness test on lat, lon and
zoom, then the generated document with no validation of any field. -/
def previewHtml (lat lon zoom : JVal) (wms : Option (List WmsReq))
    (pin : Option PinReq) : PreviewResponse :=
  if lat.truthy = false ∨ lon.truthy = false ∨ zoom.truthy = false then
    .badRequest "lat, lon, and zoom are required"
  else
    .html (generateHtml lat lon zoom wms pin)

/-! ## Embedded readiness script (lines 847-905)

State machine over the events the script reacts to.  total and loaded are
the tile counters; ready models (document.title === ready).  The events
grace2s and hard15s are the 2-second and 15-second setTimeout callbacks;
the environment fires each at its scheduled time. -/

structure TileState where
  total : Nat
  loaded : Nat
  ready : Bool
deriving DecidableEq

inductive TileEvent where
  | loadStart
  | loadEnd
  | loadError
  | renderComplete
  | grace2s
  | hard15s
deriving DecidableEq

/-- The readiness condition the handlers test: total > 0 and
loaded >= total. -/
def tileCond (total loaded : Nat) : Bool :=
  decide (0 < total) && decide (total ≤ loaded)

/-- One handler execution (lines 848-905): tileloadstart increments total;
tileloadend and tileloaderror increment loaded and set the title to ready
when the condition holds; rendercomplete sets it when the condition holds;
the 2-second callback sets it when total is still zero; the 15-second
callback sets it unconditionally. -/
def tileStep (s : TileState) : TileEvent → TileState
  | .loadStart => { s with total := s.total + 1 }
  | .loadEnd =>
    { total := s.total, loaded := s.loaded + 1,
      ready := s.ready || tileCond s.total (s.loaded + 1) }
  | .loadError =>
    { total := s.total, loaded := s.loaded + 1,
      ready := s.ready || tileCond s.total (s.loaded + 1) }
  | .renderComplete => { s with ready := s.ready || tileCond s.total s.loaded }
  | .grace2s => { s with ready := s.ready || decide (s.total = 0) }
  | .hard15s => { s with ready := true }

def runTiles (s : TileState) : List TileEvent → TileState
  | [] => s
  | e :: es => runTiles (tileStep s e) es

def initTiles : TileState := { total := 0, loaded := 0, ready := false }

/-- Well-formed event sequences: every load-end or load-error event ends a
tile fetch that was started and has not ended yet (the browser never
reports the end of a fetch that never began).  The parameter counts the
fetches currently in flight. -/
def wfTileEvents : Nat → List TileEvent → Bool
  | _, [] => true
  | pending, e :: es =>
    match e with
    | .loadStart => wfTileEvents (pending + 1) es
    | .loadEnd => decide (0 < pending) && wfTileEvents (pending - 1) es
    | .loadError => decide (0 < pending) && wfTileEvents (pending - 1) es
    | _ => wfTileEvents pending es

/-- The conditions under which the claim allows the readiness signal to be
declared by the event e from counter state s: a load-end or load-error
that completes every started fetch with at least one started, the 2-second
grace callback with zero fetches ever started, or the unconditional
15-second ceiling. -/
def declaresReady (s : TileState) : TileEvent → Bool
  | .loadStart => false
  | .loadEnd => tileCond s.total (s.loaded + 1)
  | .loadError => tileCond s.total (s.loaded + 1)
  | .renderComplete => false
  | .grace2s => decide (s.total = 0)
  | .hard15s => true

/-! ## Claim statement predicates -/

/-- Exactly one of three propositions holds. -/
def ExactlyOne (a b c : Prop) : Prop :=
  (a ∨ b ∨ c) ∧ ¬(a ∧ b) ∧ ¬(a ∧ c) ∧ ¬(b ∧ c)

/-- Post-state property for claim C3: releaseBrowser moves an instance to
idle exactly when the idle array is below capacity and destroys it
otherwise; the idle array never exceeds capacity; and every created
instance is in exactly one of idle, leased, destroyed. -/
def C3Post (s : BrowserPool) : Prop :=
  (∀ b,
    (s.browsers.length < s.maxSize →
      (releaseBrowser s b).browsers = b :: s.browsers ∧
      (releaseBrowser s b).destroyed = s.destroyed) ∧
    (s.maxSize ≤ s.browsers.length →
      (releaseBrowser s b).browsers = s.browsers ∧
      (releaseBrowser s b).destroyed = b :: s.destroyed)) ∧
  s.browsers.length ≤ s.maxSize ∧
  (∀ b, b < s.nextId →
    ExactlyOne (b ∈ s.browsers) (b ∈ s.inUse) (b ∈ s.destroyed))

/-- Post-state property for claim C8 (amended): the idle array never holds
the same instance twice, and an acquisition never hands out an instance
that is currently leased. -/
def C8Post (s : BrowserPool) : Prop :=
  s.browsers.Nodup ∧ (getBrowser s).1 ∉ s.inUse

/-- Property for claim C4: acquiring n instances from a fresh pool of
capacity c and then releasing all of them in acquisition order leaves the
idle array holding exactly the instances min n c - 1, ..., 1, 0 (most
recently released first), hence min n c idle instances, with n - c
destroyed; and when both n and c are positive the next acquire pops the
most recently released idle instance, min n c - 1, launching nothing (the
ghost identity supply nextId is unchanged). -/
def C4Post (n c : Nat) : Prop :=
  (releaseList (acquireN n (initPoolC c)).2 (acquireN n (initPoolC c)).1).browsers =
      (List.range (min n c)).reverse ∧
  (releaseList (acquireN n (initPoolC c)).2 (acquireN n (initPoolC c)).1).browsers.length =
      min n c ∧
  (releaseList (acquireN n (initPoolC c)).2 (acquireN n (initPoolC c)).1).destroyed.length =
      n - c ∧
  (1 ≤ n → 1 ≤ c →
    (getBrowser (releaseList (acquireN n (initPoolC c)).2 (acquireN n (initPoolC c)).1)).1 =
        min n c - 1 ∧
    (getBrowser (releaseList (acquireN n (initPoolC c)).2 (acquireN n (initPoolC c)).1)).2.nextId =
        (releaseList (acquireN n (initPoolC c)).2 (acquireN n (initPoolC c)).1).nextId)

/-- Property for claim C5: along any well-formed event sequence, the
readiness signal is set whenever the counter condition holds (it is
declared the first time the condition is observed, never later), and one
further event flips it exactly under the conditions the claim enumerates:
already set stays set, and a flip happens only on a load-end or load-error
completing all started fetches, on the 2-second grace callback with zero
fetches started, or on the 15-second hard ceiling - never on a load-start
or a rendercomplete event. -/
def C5Post (es : List TileEvent) : Prop :=
  (tileCond (runTiles initTiles es).total (runTiles initTiles es).loaded = true →
    (runTiles initTiles es).ready = true) ∧
  (∀ e : TileEvent,
    (tileStep (runTiles initTiles es) e).ready = true ↔
      ((runTiles initTiles es).ready = true ∨
        declaresReady (runTiles initTiles es) e = true))

/-- Property for claim C7 (amended): the handler returns the complete
validateInput error list on any validateInput violation, and the core
render pipeline runs exactly when every validation rule, the format
whitelist and the jpeg quality range all pass. -/
def C7Amended (r : ScreenshotReq) : Prop :=
  (reqErrors r ≠ [] → postScreenshot r = PostResponse.validationFailed (reqErrors r)) ∧
  (invokesCore (postScreenshot r) = true ↔
    (reqErrors r = [] ∧ supportedFormats.contains (reqFormat r) = true ∧
      (reqFormat r = "jpeg" → 1 ≤ reqQuality r ∧ reqQuality r ≤ 100)))

/-- Property for claim C9: the generated overlay declarations are in
bijection with the supplied overlay list - same length, i-th declaration
built from the i-th request entry with its url, its layer identifier, and
its opacity defaulting to 1 exactly when omitted - and the page layers
array stacks the OSM base layer first (beneath) and the overlays after it
in request order. -/
def C9Post (ws : List WmsReq) (pin : Option PinReq) : Prop :=
  (wmsLayerDecls 0 ws).length = ws.length ∧
  (∀ i, ∀ h1 : i < ws.length, ∀ h2 : i < (wmsLayerDecls 0 ws).length,
    ((wmsLayerDecls 0 ws).get ⟨i, h2⟩).name = "wmsLayer" ++ toString i ∧
    ((wmsLayerDecls 0 ws).get ⟨i, h2⟩).url = (ws.get ⟨i, h1⟩).url ∧
    ((wmsLayerDecls 0 ws).get ⟨i, h2⟩).layers = (ws.get ⟨i, h1⟩).layers ∧
    ((wmsLayerDecls 0 ws).get ⟨i, h2⟩).opacity =
      (if (ws.get ⟨i, h1⟩).opacity = JVal.undefined then JVal.num 1
        else (ws.get ⟨i, h1⟩).opacity)) ∧
  docLayers (some ws) pin =
    MapLayer.osm :: (wmsLayerDecls 0 ws).map MapLayer.wms ++
      (match pin with
        | some _ => [MapLayer.pin]
        | none => [])

/-- Property for claim C10: POST /preview-html rejects latitude 0 and
longitude 0 with the required-fields 400 although both are valid
coordinates of the data model, and every request passing the truthiness
test receives the generated document with its fields embedded and no
range validation applied to any of them. -/
def C10Post : Prop :=
  (∀ lon zoom wms pin,
    previewHtml (JVal.num 0) lon zoom wms pin =
      PreviewResponse.badRequest "lat, lon, and zoom are required") ∧
  (∀ lat zoom wms pin,
    previewHtml lat (JVal.num 0) zoom wms pin =
      PreviewResponse.badRequest "lat, lon, and zoom are required") ∧
  ((-90 : ℚ) ≤ 0 ∧ (0 : ℚ) ≤ 90 ∧ (-180 : ℚ) ≤ 0 ∧ (0 : ℚ) ≤ 180) ∧
  (∀ lat lon zoom wms pin,
    JVal.truthy lat = true → JVal.truthy lon = true → JVal.truthy zoom = true →
      previewHtml lat lon zoom wms pin =
        PreviewResponse.html (generateHtml lat lon zoom wms pin))

/-- The request of the C7 counterexample: latitude 91 (out of range) and
format gif (not in the whitelist), all other fields defaulted. -/
def c7Req : ScreenshotReq :=
  { lat := JVal.num 91, lon := JVal.num 0, zoom := JVal.num 5,
    width := JVal.undefined, height := JVal.undefined,
    format := some "gif", quality := none, wms := none, pin := none }

/-- A pin label holding a single quote, legal per validateInput (a string
of at most 50 characters). -/
def injText : String := "a" ++ squote ++ "b"

/-! ## Pool invariants -/

/-- Bookkeeping invariant of the pool: the idle array and the ghost
destroyed list hold no duplicates, the three collections are pairwise
disjoint, and together they account for exactly the instances created so
far (those with identity below nextId). -/
def PoolInv (s : BrowserPool) : Prop :=
  s.browsers.Nodup ∧ s.destroyed.Nodup ∧
  (∀ b, b ∈ s.browsers → b ∉ s.inUse) ∧
  (∀ b, b ∈ s.browsers → b ∉ s.destroyed) ∧
  (∀ b, b ∈ s.inUse → b ∉ s.destroyed) ∧
  (∀ b, (b ∈ s.browsers ∨ b ∈ s.inUse ∨ b ∈ s.destroyed) ↔ b < s.nextId)

/-- Full pool well-formedness: the bookkeeping invariant plus the capacity
bound on the idle array. -/
def PoolWf (s : BrowserPool) : Prop :=
  PoolInv s ∧ s.browsers.length ≤ s.maxSize

theorem poolWf_init : PoolWf BrowserPool.init := by
  constructor
  · refine ⟨List.nodup_nil, List.nodup_nil, ?_, ?_, ?_, ?_⟩ <;>
      simp [BrowserPool.init]
  · simp [BrowserPool.init]

theorem poolWf_initPoolC (c : Nat) : PoolWf (initPoolC c) := by
  constructor
  · refine ⟨List.nodup_nil, List.nodup_nil, ?_, ?_, ?_, ?_⟩ <;>
      simp [initPoolC]
  · simp [initPoolC]

theorem poolWf_getBrowser (s : BrowserPool) (h : PoolWf s) :
    PoolWf (getBrowser s).2 := by
  obtain ⟨⟨hnb, hnd, hbi, hbd, hid, huniv⟩, hcap⟩ := h
  cases hb : s.browsers with
  | nil =>
    refine ⟨⟨?_, ?_, ?_, ?_, ?_, ?_⟩, ?_⟩ <;>
      simp only [getBrowser, hb]
    · exact List.nodup_nil
    · exact hnd
    · simp
    · simp
    · intro b hbmem
      rcases Finset.mem_insert.mp hbmem with h1 | h1
      · subst h1
        intro hcon
        have : s.nextId < s.nextId := (huniv s.nextId).mp (Or.inr (Or.inr hcon))
        omega
      · exact hid b h1
    · intro b
      constructor
      · intro hmem
        rcases hmem with h1 | h1 | h1
        · simp at h1
        · rcases Finset.mem_insert.mp h1 with h2 | h2
          · omega
          · have := (huniv b).mp (Or.inr (Or.inl h2)); omega
        · have := (huniv b).mp (Or.inr (Or.inr h1)); omega
      · intro hlt
        by_cases hb2 : b = s.nextId
        · exact Or.inr (Or.inl (Finset.mem_insert.mpr (Or.inl hb2)))
        · have hlt2 : b < s.nextId := by omega
          rcases (huniv b).mpr hlt2 with h1 | h1 | h1
          · rw [hb] at h1; simp at h1
          · exact Or.inr (Or.inl (Finset.mem_insert.mpr (Or.inr h1)))
          · exact Or.inr (Or.inr h1)
    · simp
  | cons x rest =>
    rw [hb] at hnb hbi hbd huniv hcap
    refine ⟨⟨?_, ?_, ?_, ?_, ?_, ?_⟩, ?_⟩ <;>
      simp only [getBrowser, hb]
    · exact hnb.of_cons
    · exact hnd
    · intro b hbmem hbin
      rcases Finset.mem_insert.mp hbin with h1 | h1
      · subst h1
        exact (List.nodup_cons.mp hnb).1 hbmem
      · exact hbi b (List.mem_cons_of_mem x hbmem) h1
    · intro b hbmem
      exact hbd b (List.mem_cons_of_mem x hbmem)
    · intro b hbin
      rcases Finset.mem_insert.mp hbin with h1 | h1
      · subst h1
        exact hbd b (List.mem_cons_self b rest)
      · exact hid b h1
    · intro b
      constructor
      · intro hmem
        rcases hmem with h1 | h1 | h1
        · exact (huniv b).mp (Or.inl (List.mem_cons_of_mem x h1))
        · rcases Finset.mem_insert.mp h1 with h2 | h2
          · exact (huniv b).mp (Or.inl (List.mem_cons.mpr (Or.inl h2)))
          · exact (huniv b).mp (Or.inr (Or.inl h2))
        · exact (huniv b).mp (Or.inr (Or.inr h1))
      · intro hlt
        rcases (huniv b).mpr hlt with h1 | h1 | h1
        · rcases List.mem_cons.mp h1 with h2 | h2
          · subst h2
            exact Or.inr (Or.inl (Finset.mem_insert_self b s.inUse))
          · exact Or.inl h2
        · exact Or.inr (Or.inl (Finset.mem_insert.mpr (Or.inr h1)))
        · exact Or.inr (Or.inr h1)
    · simp at hcap ⊢; omega

theorem poolWf_releaseBrowser (s : BrowserPool) (b : Nat)
    (h : PoolWf s) (hmem : b ∈ s.inUse) :
    PoolWf (releaseBrowser s b) := by
  obtain ⟨⟨hnb, hnd, hbi, hbd, hid, huniv⟩, hcap⟩ := h
  have hbnotidle : b ∉ s.browsers := fun hc => hbi b hc hmem
  have hbnotdead : b ∉ s.destroyed := hid b hmem
  by_cases hlen : s.browsers.length < s.maxSize
  · refine ⟨⟨?_, ?_, ?_, ?_, ?_, ?_⟩, ?_⟩ <;>
      simp only [releaseBrowser, if_pos hlen]
    · exact List.nodup_cons.mpr ⟨hbnotidle, hnb⟩
    · exact hnd
    · intro x hx hxin
      have hxne : x ≠ b := fun hc => by
        subst hc; exact (Finset.mem_erase.mp hxin).1 rfl
      have hx2 : x ∈ s.browsers := by
        rcases List.mem_cons.mp hx with h1 | h1
        · exact absurd h1 hxne
        · exact h1
      exact hbi x hx2 (Finset.mem_of_mem_erase hxin)
    · intro x hx
      rcases List.mem_cons.mp hx with h1 | h1
      · subst h1; exact hbnotdead
      · exact hbd x h1
    · intro x hx
      exact hid x (Finset.mem_of_mem_erase hx)
    · intro x
      constructor
      · intro hmem2
        rcases hmem2 with h1 | h1 | h1
        · rcases List.mem_cons.mp h1 with h2 | h2
          · subst h2; exact (huniv x).mp (Or.inr (Or.inl hmem))
          · exact (huniv x).mp (Or.inl h2)
        · exact (huniv x).mp (Or.inr (Or.inl (Finset.mem_of_mem_erase h1)))
        · exact (huniv x).mp (Or.inr (Or.inr h1))
      · intro hlt
        rcases (huniv x).mpr hlt with h1 | h1 | h1
        · exact Or.inl (List.mem_cons_of_mem b h1)
        · by_cases hxb : x = b
          · subst hxb; exact Or.inl (List.mem_cons_self x s.browsers)
          · exact Or.inr (Or.inl (Finset.mem_erase.mpr ⟨hxb, h1⟩))
        · exact Or.inr (Or.inr h1)
    · simp; omega
  · refine ⟨⟨?_, ?_, ?_, ?_, ?_, ?_⟩, ?_⟩ <;>
      simp only [releaseBrowser, if_neg hlen]
    · exact hnb
    · exact List.nodup_cons.mpr ⟨hbnotdead, hnd⟩
    · intro x hx hxin
      exact hbi x hx (Finset.mem_of_mem_erase hxin)
    · intro x hx hxd
      rcases List.mem_cons.mp hxd with h1 | h1
      · subst h1; exact hbnotidle hx
      · exact hbd x hx h1
    · intro x hx hxd
      have hxne : x ≠ b := fun hc => by
        subst hc; exact (Finset.mem_erase.mp hx).1 rfl
      rcases List.mem_cons.mp hxd with h1 | h1
      · exact hxne h1
      · exact hid x (Finset.mem_of_mem_erase hx) h1
    · intro x
      constructor
      · intro hmem2
        rcases hmem2 with h1 | h1 | h1
        · exact (huniv x).mp (Or.inl h1)
        · exact (huniv x).mp (Or.inr (Or.inl (Finset.mem_of_mem_erase h1)))
        · rcases List.mem_cons.mp h1 with h2 | h2
          · subst h2; exact (huniv x).mp (Or.inr (Or.inl hmem))
          · exact (huniv x).mp (Or.inr (Or.inr h2))
      · intro hlt
        rcases (huniv x).mpr hlt with h1 | h1 | h1
        · exact Or.inl h1
        · by_cases hxb : x = b
          · subst hxb
            exact Or.inr (Or.inr (List.mem_cons_self x s.destroyed))
          · exact Or.inr (Or.inl (Finset.mem_erase.mpr ⟨hxb, h1⟩))
        · exact Or.inr (Or.inr (List.mem_cons_of_mem b h1))
    · exact hcap

theorem poolWf_runPool (ops : List PoolOp) :
    ∀ s : BrowserPool, PoolWf s → wfOps s ops = true →
      PoolWf (runPool s ops) := by
  induction ops with
  | nil => intro s h _; exact h
  | cons op rest ih =>
    intro s h hwf
    cases op with
    | acquire =>
      exact ih _ (poolWf_getBrowser s h) hwf
    | release b =>
      have hsplit := hwf
      simp only [wfOps, Bool.and_eq_true, decide_eq_true_eq] at hsplit
      exact ih _ (poolWf_releaseBrowser s b h hsplit.1) hsplit.2

/-! ## Drain-refill computation lemmas -/

theorem getBrowser_cons (s : BrowserPool) (b : Nat) (rest : List Nat)
    (h : s.browsers = b :: rest) :
    (getBrowser s).1 = b ∧ (getBrowser s).2.nextId = s.nextId := by
  constructor <;> simp [getBrowser, h]

/-- Acquiring n times from a pool whose idle array is empty launches n
fresh instances with consecutive identities and leaves the idle array
empty, the destroyed list and the capacity untouched. -/
theorem acquireN_empty (n : Nat) :
    ∀ s : BrowserPool, s.browsers = [] →
      (acquireN n s).1 = List.range' s.nextId n ∧
      (acquireN n s).2.browsers = [] ∧
      (acquireN n s).2.nextId = s.nextId + n ∧
      (acquireN n s).2.destroyed = s.destroyed ∧
      (acquireN n s).2.maxSize = s.maxSize := by
  induction n with
  | zero =>
    intro s hs
    exact ⟨rfl, hs, rfl, rfl, rfl⟩
  | succ n ih =>
    intro s hs
    have hstep : acquireN (n + 1) s =
        ((getBrowser s).1 :: (acquireN n (getBrowser s).2).1,
          (acquireN n (getBrowser s).2).2) := rfl
    have hg1 : (getBrowser s).1 = s.nextId := by simp [getBrowser, hs]
    have hg2 : (getBrowser s).2.browsers = [] := by simp [getBrowser, hs]
    have hg3 : (getBrowser s).2.nextId = s.nextId + 1 := by
      simp [getBrowser, hs]
    have hg4 : (getBrowser s).2.destroyed = s.destroyed := by
      simp [getBrowser, hs]
    have hg5 : (getBrowser s).2.maxSize = s.maxSize := by
      simp [getBrowser, hs]
    obtain ⟨ih1, ih2, ih3, ih4, ih5⟩ := ih (getBrowser s).2 hg2
    refine ⟨?_, ?_, ?_, ?_, ?_⟩
    · rw [hstep]
      show (getBrowser s).1 :: (acquireN n (getBrowser s).2).1 =
        List.range' s.nextId (n + 1)
      rw [hg1, ih1, hg3, List.range'_succ]
    · rw [hstep]; exact ih2
    · rw [hstep]
      show (acquireN n (getBrowser s).2).2.nextId = s.nextId + (n + 1)
      rw [ih3, hg3]; omega
    · rw [hstep]
      show (acquireN n (getBrowser s).2).2.destroyed = s.destroyed
      rw [ih4, hg4]
    · rw [hstep]
      show (acquireN n (getBrowser s).2).2.maxSize = s.maxSize
      rw [ih5, hg5]

/-- Releasing a list of instances fills the idle array up to capacity with
the earliest-released first (each push at the head, so most recently
released at the head) and destroys the remainder, in order. -/
theorem releaseList_spec (l : List Nat) :
    ∀ s : BrowserPool, s.browsers.length ≤ s.maxSize →
      (releaseList s l).browsers =
        (l.take (s.maxSize - s.browsers.length)).reverse ++ s.browsers ∧
      (releaseList s l).destroyed =
        (l.drop (s.maxSize - s.browsers.length)).reverse ++ s.destroyed ∧
      (releaseList s l).nextId = s.nextId ∧
      (releaseList s l).maxSize = s.maxSize := by
  induction l with
  | nil =>
    intro s hs
    refine ⟨?_, ?_, rfl, rfl⟩ <;> simp [releaseList]
  | cons b bs ih =>
    intro s hs
    have hunfold : releaseList s (b :: bs) = releaseList (releaseBrowser s b) bs :=
      rfl
    by_cases hlen : s.browsers.length < s.maxSize
    · have hrel1 : (releaseBrowser s b).browsers = b :: s.browsers := by
        simp [releaseBrowser, hlen]
      have hrel2 : (releaseBrowser s b).destroyed = s.destroyed := by
        simp [releaseBrowser, hlen]
      have hrel3 : (releaseBrowser s b).nextId = s.nextId := by
        simp [releaseBrowser, hlen]
      have hrel4 : (releaseBrowser s b).maxSize = s.maxSize := by
        simp [releaseBrowser, hlen]
      have hle : (releaseBrowser s b).browsers.length ≤
          (releaseBrowser s b).maxSize := by
        rw [hrel1, hrel4]
        simp only [List.length_cons]
        omega
      obtain ⟨ih1, ih2, ih3, ih4⟩ := ih (releaseBrowser s b) hle
      have hk : (releaseBrowser s b).maxSize - (releaseBrowser s b).browsers.length =
          s.maxSize - s.browsers.length - 1 := by
        rw [hrel1, hrel4]
        simp only [List.length_cons]
        omega
      have htake : (b :: bs).take (s.maxSize - s.browsers.length) =
          b :: bs.take (s.maxSize - s.browsers.length - 1) := by
        have h1 : s.maxSize - s.browsers.length =
            (s.maxSize - s.browsers.length - 1) + 1 := by omega
        rw [h1, List.take_succ_cons]
        simp
      have hdrop : (b :: bs).drop (s.maxSize - s.browsers.length) =
          bs.drop (s.maxSize - s.browsers.length - 1) := by
        have h1 : s.maxSize - s.browsers.length =
            (s.maxSize - s.browsers.length - 1) + 1 := by omega
        rw [h1, List.drop_succ_cons]
        simp
      refine ⟨?_, ?_, ?_, ?_⟩
      · rw [hunfold, ih1, hk, hrel1, htake]
        simp [List.append_assoc]
      · rw [hunfold, ih2, hk, hrel2, hdrop]
      · rw [hunfold, ih3, hrel3]
      · rw [hunfold, ih4, hrel4]
    · have hK0 : s.maxSize - s.browsers.length = 0 := by omega
      have hrel1 : (releaseBrowser s b).browsers = s.browsers := by
        simp [releaseBrowser, hlen]
      have hrel2 : (releaseBrowser s b).destroyed = b :: s.destroyed := by
        simp [releaseBrowser, hlen]
      have hrel3 : (releaseBrowser s b).nextId = s.nextId := by
        simp [releaseBrowser, hlen]
      have hrel4 : (releaseBrowser s b).maxSize = s.maxSize := by
        simp [releaseBrowser, hlen]
      have hle : (releaseBrowser s b).browsers.length ≤
          (releaseBrowser s b).maxSize := by
        rw [hrel1, hrel4]; exact hs
      obtain ⟨ih1, ih2, ih3, ih4⟩ := ih (releaseBrowser s b) hle
      have hk : (releaseBrowser s b).maxSize - (releaseBrowser s b).browsers.length = 0 := by
        rw [hrel1, hrel4]; exact hK0
      refine ⟨?_, ?_, ?_, ?_⟩
      · rw [hunfold, ih1, hk, hrel1, hK0]
        simp
      · rw [hunfold, ih2, hk, hrel2, hK0]
        simp
      · rw [hunfold, ih3, hrel3]
      · rw [hunfold, ih4, hrel4]

/-! ## Claim theorems -/

/-- C1: the claim states that every render request failing after engine
acquisition releases the held instance through the pool's release
operation, leaving it outside the leased set.  The code does not: the
catch block of POST /screenshot closes the browser directly and never
calls releaseBrowser, so after the failure path the instance is still a
member of the pool's inUse set (and is not in the idle array), whereas
the release path would have removed it from inUse and returned it to
idle.  Evaluated on the concrete failing run: a fresh pool, one
acquisition, then the catch path. -/
theorem c1_catch_block_leaks_lease :
    (getBrowser BrowserPool.init).1 ∈
      (screenshotCatchPath (getBrowser BrowserPool.init).2
        (some (getBrowser BrowserPool.init).1)).inUse ∧
    (screenshotCatchPath (getBrowser BrowserPool.init).2
        (some (getBrowser BrowserPool.init).1)).browsers = [] ∧
    (getBrowser BrowserPool.init).1 ∉
      (releaseBrowser (getBrowser BrowserPool.init).2
        (getBrowser BrowserPool.init).1).inUse ∧
    (releaseBrowser (getBrowser BrowserPool.init).2
        (getBrowser BrowserPool.init).1).browsers =
      [(getBrowser BrowserPool.init).1] := by
  decide

/-- C2: the claim states that every externally supplied string is
embedded escaped, never by raw interpolation.  The code embeds them raw:
for the pin label a-quote-b - a request string that passes validation
(pinErrors accepts it) - the generated script fragment is exactly the raw
text between the single-quote delimiters, holding three unescaped quote
characters and no escape character at all, so the quote inside the input
terminates the script string literal early and alters the script
structure.  The overlay source url site behaves identically. -/
theorem c2_injection_unescaped :
    embedPinText injText = "text: " ++ squote ++ injText ++ squote ++ "," ∧
    quoteCount injText = 1 ∧
    quoteCount (embedPinText injText) = 3 ∧
    backslashCount (embedPinText injText) = 0 ∧
    embedWmsUrl injText = "url: " ++ squote ++ injText ++ squote ++ "," ∧
    quoteCount (embedWmsUrl injText) = 3 ∧
    backslashCount (embedWmsUrl injText) = 0 ∧
    pinErrors
      { lat := JVal.undefined, lon := JVal.undefined,
        text := JVal.str injText, color := JVal.undefined,
        size := JVal.undefined } = [] := by
  decide

/-- C6: the claim states a width or height violation is reported exactly
when the supplied value lies outside 100..2000.  The code checks the
lower bound 50 (contradicting its own message text and the api-info
documentation, both of which say 100): width 75 and height 75 are
outside 100..2000 yet produce no violation, while 49 does produce the
violation message - whose text itself promises the bound 100. -/
theorem c6_width_height_bound_50 :
    validateInput (JVal.num 41) (JVal.num 29) (JVal.num 15)
      (JVal.num 75) (JVal.num 480) none none = [] ∧
    ¬ ((100 : ℚ) ≤ 75) ∧
    validateInput (JVal.num 41) (JVal.num 29) (JVal.num 15)
      (JVal.num 640) (JVal.num 75) none none = [] ∧
    validateInput (JVal.num 41) (JVal.num 29) (JVal.num 15)
      (JVal.num 49) (JVal.num 480) none none = [widthMsg] ∧
    validateInput (JVal.num 41) (JVal.num 29) (JVal.num 15)
      (JVal.num 100) (JVal.num 2000) none none = [] ∧
    widthMsg = "Width must be a number between 100 and 2000" := by
  decide

/-- C3: releaseBrowser returns the instance to idle exactly when the idle
array is below capacity and destroys it otherwise; along every
well-formed call sequence from the constructor state the idle array stays
within capacity and every created instance is in exactly one of idle,
leased, destroyed. -/
theorem c3_release_policy_and_partition (ops : List PoolOp)
    (h : wfOps BrowserPool.init ops = true) :
    C3Post (runPool BrowserPool.init ops) := by
  have hwf := poolWf_runPool ops BrowserPool.init poolWf_init h
  obtain ⟨⟨hnb, hnd, hbi, hbd, hid, huniv⟩, hcap⟩ := hwf
  refine ⟨?_, hcap, ?_⟩
  · intro b
    constructor
    · intro hlt
      constructor <;> simp [releaseBrowser, hlt]
    · intro hge
      have hnlt : ¬ ((runPool BrowserPool.init ops).browsers.length <
          (runPool BrowserPool.init ops).maxSize) := by omega
      constructor <;> simp [releaseBrowser, hnlt]
  · intro b hblt
    refine ⟨?_, fun hc => hbi b hc.1 hc.2, fun hc => hbd b hc.1 hc.2,
      fun hc => hid b hc.1 hc.2⟩
    rcases (huniv b).mpr hblt with h1 | h1 | h1
    · exact Or.inl h1
    · exact Or.inr (Or.inl h1)
    · exact Or.inr (Or.inr h1)

theorem c3_witness :
    C3Post (runPool BrowserPool.init [PoolOp.acquire, PoolOp.release 0]) :=
  c3_release_policy_and_partition _ (by decide)

/-- C8 counterexample: the claim states that releasing the same instance
twice never results in the instance appearing twice in idle or being
handed to two holders.  On the code, after one acquisition releasing
instance 0 twice puts it twice into the idle array, and the two following
acquisitions both hand out instance 0. -/
theorem c8_counterexample :
    (runPool BrowserPool.init
      [PoolOp.acquire, PoolOp.release 0, PoolOp.release 0]).browsers = [0, 0] ∧
    ¬ (runPool BrowserPool.init
      [PoolOp.acquire, PoolOp.release 0, PoolOp.release 0]).browsers.Nodup ∧
    (getBrowser (runPool BrowserPool.init
      [PoolOp.acquire, PoolOp.release 0, PoolOp.release 0])).1 = 0 ∧
    (getBrowser (getBrowser (runPool BrowserPool.init
      [PoolOp.acquire, PoolOp.release 0, PoolOp.release 0])).2).1 = 0 := by
  decide

/-- C8 (amended): along every call sequence in which each release targets
a currently-leased instance, the idle array never holds a duplicate (no
release is double-counted into idle) and an acquisition never hands out
an instance that is currently leased to another holder. -/
theorem c8_wf_no_double_lease (ops : List PoolOp)
    (h : wfOps BrowserPool.init ops = true) :
    C8Post (runPool BrowserPool.init ops) := by
  have hwf := poolWf_runPool ops BrowserPool.init poolWf_init h
  obtain ⟨⟨hnb, hnd, hbi, hbd, hid, huniv⟩, hcap⟩ := hwf
  refine ⟨hnb, ?_⟩
  cases hb : (runPool BrowserPool.init ops).browsers with
  | nil =>
    have h1 : (getBrowser (runPool BrowserPool.init ops)).1 =
        (runPool BrowserPool.init ops).nextId := by
      simp [getBrowser, hb]
    rw [h1]
    intro hcon
    have := (huniv _).mp (Or.inr (Or.inl hcon))
    omega
  | cons x rest =>
    have h1 : (getBrowser (runPool BrowserPool.init ops)).1 = x := by
      simp [getBrowser, hb]
    rw [h1]
    exact hbi x (by rw [hb]; exact List.mem_cons_self x rest)

theorem c8_witness :
    C8Post (runPool BrowserPool.init [PoolOp.acquire, PoolOp.acquire]) :=
  c8_wf_no_double_lease _ (by decide)

/-- C4: acquiring n times from a fresh pool of capacity c (each
acquisition launching a fresh instance, since the idle array is empty
throughout) and then releasing all n in order leaves min n c instances
idle - the most recently released at the top of the stack - and n - c
destroyed; and whenever at least one instance sits idle, the next acquire
pops the most recently released idle instance instead of launching a new
one (the identity supply is untouched). -/
theorem c4_drain_refill_lifo : ∀ n c : Nat, C4Post n c := by
  intro n c
  obtain ⟨ha1, ha2, ha3, ha4, ha5⟩ := acquireN_empty n (initPoolC c) rfl
  have hcap : (acquireN n (initPoolC c)).2.browsers.length ≤
      (acquireN n (initPoolC c)).2.maxSize := by
    rw [ha2, ha5]
    simp [initPoolC]
  obtain ⟨hr1, hr2, hr3, hr4⟩ :=
    releaseList_spec (acquireN n (initPoolC c)).1 (acquireN n (initPoolC c)).2 hcap
  have hids : (acquireN n (initPoolC c)).1 = List.range n := by
    rw [ha1]
    show List.range' (initPoolC c).nextId n = List.range n
    rw [List.range_eq_range']
    rfl
  have hK : (acquireN n (initPoolC c)).2.maxSize -
      (acquireN n (initPoolC c)).2.browsers.length = c := by
    rw [ha2, ha5]
    simp [initPoolC]
  have hbrow : (releaseList (acquireN n (initPoolC c)).2
      (acquireN n (initPoolC c)).1).browsers =
      (List.range (min n c)).reverse := by
    rw [hr1, hK, ha2, hids, List.take_range, Nat.min_comm]
    simp
  have hdest : (releaseList (acquireN n (initPoolC c)).2
      (acquireN n (initPoolC c)).1).destroyed =
      ((List.range n).drop c).reverse := by
    rw [hr2, hK, hids, ha4]
    simp [initPoolC]
  refine ⟨hbrow, ?_, ?_, ?_⟩
  · rw [hbrow]
    simp
  · rw [hdest]
    simp
  · intro hn hc
    obtain ⟨k, hk2⟩ : ∃ k, min n c = k + 1 := ⟨min n c - 1, by omega⟩
    have hsplit : (List.range (min n c)).reverse = k :: (List.range k).reverse := by
      rw [hk2, List.range_succ]
      simp
    have hcons := getBrowser_cons
      (releaseList (acquireN n (initPoolC c)).2 (acquireN n (initPoolC c)).1)
      k ((List.range k).reverse) (by rw [hbrow, hsplit])
    constructor
    · rw [hcons.1]
      omega
    · exact hcons.2

theorem c4_witness : C4Post 5 3 := c4_drain_refill_lifo 5 3

/-- Invariant of the embedded readiness script along well-formed event
sequences: whenever the title has not been set to ready, the counter
condition does not hold (so the handlers set it the first time it does).
The pending parameter counts fetches in flight. -/
theorem tiles_inv (es : List TileEvent) :
    ∀ (s : TileState) (pending : Nat),
      s.loaded + pending = s.total →
      (s.ready = false → tileCond s.total s.loaded = false) →
      wfTileEvents pending es = true →
      ((runTiles s es).ready = false →
        tileCond (runTiles s es).total (runTiles s es).loaded = false) := by
  induction es with
  | nil =>
    intro s pending _ hinv _
    exact hinv
  | cons e rest ih =>
    intro s pending hbal hinv hwf
    cases e with
    | loadStart =>
      refine ih _ (pending + 1) (by simp [tileStep]; omega) ?_ hwf
      intro _
      simp only [tileStep, tileCond]
      have : ¬ (s.total + 1 ≤ s.loaded) := by omega
      simp [this]
    | loadEnd =>
      simp only [wfTileEvents, Bool.and_eq_true, decide_eq_true_eq] at hwf
      refine ih _ (pending - 1) (by simp [tileStep]; omega) ?_ hwf.2
      intro hready
      simp only [tileStep] at hready ⊢
      rcases Bool.or_eq_false_iff.mp hready with ⟨_, hcond⟩
      exact hcond
    | loadError =>
      simp only [wfTileEvents, Bool.and_eq_true, decide_eq_true_eq] at hwf
      refine ih _ (pending - 1) (by simp [tileStep]; omega) ?_ hwf.2
      intro hready
      simp only [tileStep] at hready ⊢
      rcases Bool.or_eq_false_iff.mp hready with ⟨_, hcond⟩
      exact hcond
    | renderComplete =>
      refine ih _ pending (by simp [tileStep]; omega) ?_ hwf
      intro hready
      simp only [tileStep] at hready ⊢
      rcases Bool.or_eq_false_iff.mp hready with ⟨_, hcond⟩
      exact hcond
    | grace2s =>
      refine ih _ pending (by simp [tileStep]; omega) ?_ hwf
      intro hready
      simp only [tileStep] at hready ⊢
      rcases Bool.or_eq_false_iff.mp hready with ⟨hr, _⟩
      exact hinv hr
    | hard15s =>
      refine ih _ pending (by simp [tileStep]; omega) ?_ hwf
      intro hready
      simp only [tileStep] at hready
      cases hready

/-- C5: along every well-formed tile event sequence the readiness signal
is set as soon as the counter condition (started positive and all started
fetches ended) holds, and a further event flips the signal exactly under
the conditions the claim enumerates - a tile load-end or load-error
making the condition hold, the 2-second grace callback with zero fetches
ever started, or the unconditional 15-second ceiling; an already-set
signal stays set (it is declared only once), and neither a load-start nor
a rendercomplete event ever performs the flip. -/
theorem c5_readiness_protocol (es : List TileEvent)
    (hwf : wfTileEvents 0 es = true) : C5Post es := by
  have hinv := tiles_inv es initTiles 0 rfl (by simp [tileCond, initTiles]) hwf
  constructor
  · intro hcond
    cases hb : (runTiles initTiles es).ready with
    | true => rfl
    | false =>
      rw [hinv hb] at hcond
      cases hcond
  · intro e
    cases hb : (runTiles initTiles es).ready with
    | true =>
      cases e <;> simp [tileStep, declaresReady, hb]
    | false =>
      have hcf := hinv hb
      cases e <;> simp [tileStep, declaresReady, hb, hcf]

theorem c5_witness : C5Post [TileEvent.loadStart, TileEvent.loadEnd] :=
  c5_readiness_protocol _ (by decide)

/-- C7 counterexample: the claim states that a request violating several
of the listed rules (including format) receives a 400 carrying every
violated rule.  For the request with latitude 91 and format gif - both
rules violated - the handler answers with the validation 400 whose
details list holds only the latitude message and says nothing about the
format rule, because the format whitelist is only consulted after
validateInput passes. -/
theorem c7_counterexample :
    postScreenshot c7Req = PostResponse.validationFailed [latMsg] ∧
    supportedFormats.contains "gif" = false ∧
    reqFormat c7Req = "gif" := by
  decide

/-- C7 (amended): every rule violation detected by validateInput is
reported, all together, as the details list of a single 400, and the core
render pipeline is entered exactly when validateInput finds nothing, the
format is in the whitelist, and - for jpeg - the quality lies in 1..100;
on any violation the core is never invoked.  Format and quality
violations, however, are checked after validateInput and answered by
their own separate 400s. -/
theorem c7_full_list_and_no_core (r : ScreenshotReq) : C7Amended r := by
  refine ⟨?_, ?_⟩
  · intro hne
    have hfalse : (reqErrors r).isEmpty = false := by
      cases h : reqErrors r with
      | nil => exact absurd h hne
      | cons a l => rfl
    simp [postScreenshot, hfalse]
  · by_cases he : reqErrors r = []
    · have htrue : (reqErrors r).isEmpty = true := by rw [he]; rfl
      by_cases hf : supportedFormats.contains (reqFormat r) = true
      · have hfm : reqFormat r ∈ supportedFormats := by simpa using hf
        by_cases hq : reqFormat r = "jpeg" ∧ (reqQuality r < 1 ∨ reqQuality r > 100)
        · have hps : postScreenshot r = PostResponse.badQuality := by
            simp [postScreenshot, htrue, hfm, hq]
            decide
          rw [hps]
          simp only [invokesCore]
          constructor
          · intro hcon
            cases hcon
          · rintro ⟨-, -, himp⟩
            exfalso
            obtain ⟨hj, hqr⟩ := hq
            obtain ⟨h1, h2⟩ := himp hj
            rcases hqr with h3 | h3 <;> linarith
        · have hps : postScreenshot r =
              PostResponse.render (generateHtml r.lat r.lon r.zoom r.wms r.pin)
                (reqWidth r) (reqHeight r) (reqFormat r) (reqQuality r) := by
            simp [postScreenshot, htrue, hfm, hq]
          rw [hps]
          simp only [invokesCore]
          constructor
          · intro _
            refine ⟨he, hf, ?_⟩
            intro hj
            constructor
            · by_contra hcon
              exact hq ⟨hj, Or.inl (lt_of_not_le hcon)⟩
            · by_contra hcon
              exact hq ⟨hj, Or.inr (lt_of_not_le hcon)⟩
          · intro _
            trivial
      · have hff : supportedFormats.contains (reqFormat r) = false := by
          cases hcc : supportedFormats.contains (reqFormat r) with
          | false => rfl
          | true => exact absurd hcc hf
        have hfm : reqFormat r ∉ supportedFormats := by simpa using hff
        have hps : postScreenshot r = PostResponse.unsupportedFormat supportedFormats := by
          simp [postScreenshot, htrue, hfm]
        rw [hps]
        simp only [invokesCore]
        constructor
        · intro hcon
          cases hcon
        · rintro ⟨-, hc, -⟩
          exact absurd hc hf
    · have hfalse : (reqErrors r).isEmpty = false := by
        cases h : reqErrors r with
        | nil => exact absurd h he
        | cons a l => rfl
      have hps : postScreenshot r = PostResponse.validationFailed (reqErrors r) := by
        simp [postScreenshot, hfalse]
      rw [hps]
      simp only [invokesCore]
      constructor
      · intro hcon
        cases hcon
      · rintro ⟨hc, -, -⟩
        exact absurd hc he

theorem c7_witness :
    postScreenshot c7Req = PostResponse.validationFailed (reqErrors c7Req) :=
  (c7_full_list_and_no_core c7Req).1 (by decide)

theorem wmsLayerDecls_length (ws : List WmsReq) :
    ∀ i : Nat, (wmsLayerDecls i ws).length = ws.length := by
  induction ws with
  | nil => intro i; rfl
  | cons w rest ih =>
    intro i
    simp only [wmsLayerDecls, List.length_cons, ih]

/-- The declaration at position i of the forEach output starting at index
j is built from the i-th request entry, named by index j + i, with the
opacity default applied exactly when the entry omits opacity. -/
theorem wmsLayerDecls_get (ws : List WmsReq) :
    ∀ (j i : Nat) (h1 : i < ws.length) (h2 : i < (wmsLayerDecls j ws).length),
      (wmsLayerDecls j ws).get ⟨i, h2⟩ =
        { name := "wmsLayer" ++ toString (j + i),
          url := (ws.get ⟨i, h1⟩).url,
          layers := (ws.get ⟨i, h1⟩).layers,
          opacity := if (ws.get ⟨i, h1⟩).opacity = JVal.undefined then JVal.num 1
            else (ws.get ⟨i, h1⟩).opacity } := by
  induction ws with
  | nil =>
    intro j i h1 _
    exact absurd h1 (Nat.not_lt_zero i)
  | cons w rest ih =>
    intro j i h1 h2
    cases i with
    | zero => rfl
    | succ i2 =>
      have h1t : i2 < rest.length := Nat.lt_of_succ_lt_succ h1
      have h2t : i2 < (wmsLayerDecls (j + 1) rest).length := by
        rw [wmsLayerDecls_length]
        exact h1t
      have harith : j + 1 + i2 = j + (i2 + 1) := by omega
      show (wmsLayerDecls (j + 1) rest).get ⟨i2, h2t⟩ = _
      rw [ih (j + 1) i2 h1t h2t, harith]
      rfl

/-- C9: for every overlay list of length at most 5 the generator emits
exactly one declaration per overlay, in request order, each carrying the
request url and layer identifier and its opacity - defaulting to 1
exactly when omitted - and the page layers array places the OSM base
layer first (beneath) with all overlays after it in that same order. -/
theorem c9_overlay_declarations (ws : List WmsReq) (pin : Option PinReq)
    (hlen : ws.length ≤ 5) : C9Post ws pin := by
  refine ⟨wmsLayerDecls_length ws 0, ?_, ?_⟩
  · intro i h1 h2
    have h := wmsLayerDecls_get ws 0 i h1 h2
    rw [Nat.zero_add] at h
    rw [h]
    exact ⟨rfl, rfl, rfl, rfl⟩
  · rfl

theorem c9_witness :
    C9Post
      [{ url := JVal.str "https://example.com/wms",
         layers := JVal.str "base:layer", opacity := JVal.undefined },
       { url := JVal.str "https://example.com/wms2",
         layers := JVal.str "extra:layer", opacity := JVal.num (7 / 10) }]
      none :=
  c9_overlay_declarations _ none (by decide)

/-- C10: POST /preview-html tests lat, lon and zoom by truthiness, so a
request with latitude 0 or longitude 0 - valid coordinates of the data
model - is answered with the required-fields 400 instead of the
document; and every request that passes the truthiness test receives the
generated document built directly from its fields, with no range
validation applied to lat, lon, zoom, wms or pin. -/
theorem c10_preview_truthiness : C10Post := by
  refine ⟨?_, ?_, by norm_num, ?_⟩
  · intro lon zoom wms pin
    simp [previewHtml, JVal.truthy]
  · intro lat zoom wms pin
    simp [previewHtml, JVal.truthy]
  · intro lat lon zoom wms pin hl hlo hz
    simp [previewHtml, hl, hlo, hz]

theorem c10_witness :
    previewHtml (JVal.num 1000) (JVal.num 999) (JVal.num 50) none none =
      PreviewResponse.html
        (generateHtml (JVal.num 1000) (JVal.num 999) (JVal.num 50) none none) := by
  have h := c10_preview_truthiness
  unfold C10Post at h
  exact h.2.2.2 _ _ _ _ _ (by decide) (by decide) (by decide)

end MapShot
